import Mathlib

/-!
Verification development for the antrea flow-record lifecycle engine and its
ClickHouse batch-export sink.

The definitions below are a shallow embedding of the Go sources:
  * pkg/flowaggregator/clickhouseclient/clickhouseclient.go
    (ingestion buffer `CacheSet`, `batchCommitAll`, `Stop`,
     `getDataSourceName`, `GetDsnMap`, the insert statement);
  * pkg/flowaggregator/options/options.go (`LoadConfig`);
  * the deny-connection store (its implementation is not part of the
    source tree here, only its unit test; those definitions are modelled
    from the specification, as marked in their doc comments).

Machine integers (uint8/16/64) are modelled as `Nat`; `time.Time` values
produced by `time.Unix(sec, 0)` are modelled by their second counts;
`time.Duration` values are modelled as `Int` nanosecond counts.
Fallible Go calls (`database/sql`, parsers) are modelled by explicit
oracles returning `Bool`/`Except` results.
-/

set_option autoImplicit false
set_option maxRecDepth 100000

namespace AntreaSpec

/-- A value passed as one argument of the parameterized insert statement.
The constructors record the Go type of the corresponding
`ClickHouseFlowRow` field: `time.Time` (as Unix seconds), `uint8`,
`uint16`, `uint64`, `string`. -/
inductive ColValue where
  | t (unixSeconds : Nat)
  | u8 (v : Nat)
  | u16 (v : Nat)
  | u64 (v : Nat)
  | s (v : String)
deriving DecidableEq, Repr

/-- Embedding of the Go struct `ClickHouseFlowRow`
(clickhouseclient.go, lines 139-187), field for field and in the same
order. `time.Time` fields are Unix second counts, unsigned integers are
`Nat`. -/
structure ClickHouseFlowRow where
  flowStartSeconds : Nat
  flowEndSeconds : Nat
  flowEndSecondsFromSourceNode : Nat
  flowEndSecondsFromDestinationNode : Nat
  flowEndReason : Nat
  sourceIP : String
  destinationIP : String
  sourceTransportPort : Nat
  destinationTransportPort : Nat
  protocolIdentifier : Nat
  packetTotalCount : Nat
  octetTotalCount : Nat
  packetDeltaCount : Nat
  octetDeltaCount : Nat
  reversePacketTotalCount : Nat
  reverseOctetTotalCount : Nat
  reversePacketDeltaCount : Nat
  reverseOctetDeltaCount : Nat
  sourcePodName : String
  sourcePodNamespace : String
  sourceNodeName : String
  destinationPodName : String
  destinationPodNamespace : String
  destinationNodeName : String
  destinationClusterIP : String
  destinationServicePort : Nat
  destinationServicePortName : String
  ingressNetworkPolicyName : String
  ingressNetworkPolicyNamespace : String
  ingressNetworkPolicyRuleName : String
  ingressNetworkPolicyRuleAction : Nat
  ingressNetworkPolicyType : Nat
  egressNetworkPolicyName : String
  egressNetworkPolicyNamespace : String
  egressNetworkPolicyRuleName : String
  egressNetworkPolicyRuleAction : Nat
  egressNetworkPolicyType : Nat
  tcpState : String
  flowType : Nat
  sourcePodLabels : String
  destinationPodLabels : String
  throughput : Nat
  reverseThroughput : Nat
  throughputFromSourceNode : Nat
  throughputFromDestinationNode : Nat
  reverseThroughputFromSourceNode : Nat
  reverseThroughputFromDestinationNode : Nat
deriving DecidableEq, Repr

/-- The text of the constant `insertQuery`
(clickhouseclient.go, lines 33-82), copied verbatim from the Go raw
string literal. -/
def insertQuery : String := "INSERT INTO flows (
                   flowStartSeconds,
                   flowEndSeconds,
                   flowEndSecondsFromSourceNode,
                   flowEndSecondsFromDestinationNode,
                   flowEndReason,
                   sourceIP,
                   destinationIP,
                   sourceTransportPort,
                   destinationTransportPort,
                   protocolIdentifier,
                   packetTotalCount,
                   octetTotalCount,
                   packetDeltaCount,
                   octetDeltaCount,
                   reversePacketTotalCount,
                   reverseOctetTotalCount,
                   reversePacketDeltaCount,
                   reverseOctetDeltaCount,
                   sourcePodName,
                   sourcePodNamespace,
                   sourceNodeName,
                   destinationPodName,
                   destinationPodNamespace,
                   destinationNodeName,
                   destinationClusterIP,
                   destinationServicePort,
                   destinationServicePortName,
                   ingressNetworkPolicyName,
                   ingressNetworkPolicyNamespace,
                   ingressNetworkPolicyRuleName,
                   ingressNetworkPolicyRuleAction,
                   ingressNetworkPolicyType,
                   egressNetworkPolicyName,
                   egressNetworkPolicyNamespace,
                   egressNetworkPolicyRuleName,
                   egressNetworkPolicyRuleAction,
                   egressNetworkPolicyType,
                   tcpState,
                   flowType,
                   sourcePodLabels,
                   destinationPodLabels,
                   throughput,
                   reverseThroughput,
                   throughputFromSourceNode,
                   throughputFromDestinationNode,
                   reverseThroughputFromSourceNode,
                   reverseThroughputFromDestinationNode)
                   VALUES (?, ?, ?, ?, ?, ?, ?, ?, ?, ?, ?, ?, ?, ?, ?, ?, ?, ?, ?, ?, ?, ?, ?, ?,
                           ?, ?, ?, ?, ?, ?, ?, ?, ?, ?, ?, ?, ?, ?, ?, ?, ?, ?, ?, ?, ?, ?, ?)"

/-- Splitting a character list at every occurrence of `sep`; this is the
behaviour of Go `strings.Split` for a one-character separator. -/
def splitOnChar (sep : Char) : List Char → List (List Char)
  | [] => [[]]
  | c :: rest =>
    if c = sep then [] :: splitOnChar sep rest
    else
      match splitOnChar sep rest with
      | [] => [[c]]
      | h :: t => (c :: h) :: t

/-- Drop everything up to and including the first occurrence of `sep`. -/
def dropThroughChar (sep : Char) : List Char → List Char
  | [] => []
  | c :: rest => if c = sep then rest else dropThroughChar sep rest

/-- Keep everything strictly before the first occurrence of `sep`. -/
def takeUntilChar (sep : Char) : List Char → List Char
  | [] => []
  | c :: rest => if c = sep then [] else c :: takeUntilChar sep rest

/-- Whitespace as it occurs inside the `insertQuery` literal. -/
def isQueryWhitespace (c : Char) : Bool :=
  c = ' ' || c = '\n' || c = '\t' || c = '\r'

/-- The column names of `insertQuery`: the comma-separated identifiers
between the first pair of parentheses, with surrounding whitespace
removed. -/
def insertQueryColumnNames : List String :=
  (splitOnChar ',' (takeUntilChar ')' (dropThroughChar '(' insertQuery.data))).map
    (fun cs => String.mk (cs.filter (fun c => !isQueryWhitespace c)))

/-- The number of positional placeholders of `insertQuery`. -/
def insertQueryPlaceholderCount : Nat :=
  (insertQuery.data.filter (fun c => c = '?')).length

/-- The argument list of the `stmt.Exec` call inside `batchCommitAll`
(clickhouseclient.go, lines 439-486), in the exact order the Go code
passes the record's fields. -/
def execArgs (record : ClickHouseFlowRow) : List ColValue :=
  [.t record.flowStartSeconds,
   .t record.flowEndSeconds,
   .t record.flowEndSecondsFromSourceNode,
   .t record.flowEndSecondsFromDestinationNode,
   .u8 record.flowEndReason,
   .s record.sourceIP,
   .s record.destinationIP,
   .u16 record.sourceTransportPort,
   .u16 record.destinationTransportPort,
   .u8 record.protocolIdentifier,
   .u64 record.packetTotalCount,
   .u64 record.octetTotalCount,
   .u64 record.packetDeltaCount,
   .u64 record.octetDeltaCount,
   .u64 record.reversePacketTotalCount,
   .u64 record.reverseOctetTotalCount,
   .u64 record.reversePacketDeltaCount,
   .u64 record.reverseOctetDeltaCount,
   .s record.sourcePodName,
   .s record.sourcePodNamespace,
   .s record.sourceNodeName,
   .s record.destinationPodName,
   .s record.destinationPodNamespace,
   .s record.destinationNodeName,
   .s record.destinationClusterIP,
   .u16 record.destinationServicePort,
   .s record.destinationServicePortName,
   .s record.ingressNetworkPolicyName,
   .s record.ingressNetworkPolicyNamespace,
   .s record.ingressNetworkPolicyRuleName,
   .u8 record.ingressNetworkPolicyRuleAction,
   .u8 record.ingressNetworkPolicyType,
   .s record.egressNetworkPolicyName,
   .s record.egressNetworkPolicyNamespace,
   .s record.egressNetworkPolicyRuleName,
   .u8 record.egressNetworkPolicyRuleAction,
   .u8 record.egressNetworkPolicyType,
   .s record.tcpState,
   .u8 record.flowType,
   .s record.sourcePodLabels,
   .s record.destinationPodLabels,
   .u64 record.throughput,
   .u64 record.reverseThroughput,
   .u64 record.throughputFromSourceNode,
   .u64 record.throughputFromDestinationNode,
   .u64 record.reverseThroughputFromSourceNode,
   .u64 record.reverseThroughputFromDestinationNode]

/-- The `ClickHouseFlowRow` field bearing a given name, wrapped in the
`ColValue` of its Go type; `none` when no field bears that name. -/
def fieldNamed (record : ClickHouseFlowRow) (name : String) : Option ColValue :=
  match name with
  | "flowStartSeconds" => some (.t record.flowStartSeconds)
  | "flowEndSeconds" => some (.t record.flowEndSeconds)
  | "flowEndSecondsFromSourceNode" => some (.t record.flowEndSecondsFromSourceNode)
  | "flowEndSecondsFromDestinationNode" => some (.t record.flowEndSecondsFromDestinationNode)
  | "flowEndReason" => some (.u8 record.flowEndReason)
  | "sourceIP" => some (.s record.sourceIP)
  | "destinationIP" => some (.s record.destinationIP)
  | "sourceTransportPort" => some (.u16 record.sourceTransportPort)
  | "destinationTransportPort" => some (.u16 record.destinationTransportPort)
  | "protocolIdentifier" => some (.u8 record.protocolIdentifier)
  | "packetTotalCount" => some (.u64 record.packetTotalCount)
  | "octetTotalCount" => some (.u64 record.octetTotalCount)
  | "packetDeltaCount" => some (.u64 record.packetDeltaCount)
  | "octetDeltaCount" => some (.u64 record.octetDeltaCount)
  | "reversePacketTotalCount" => some (.u64 record.reversePacketTotalCount)
  | "reverseOctetTotalCount" => some (.u64 record.reverseOctetTotalCount)
  | "reversePacketDeltaCount" => some (.u64 record.reversePacketDeltaCount)
  | "reverseOctetDeltaCount" => some (.u64 record.reverseOctetDeltaCount)
  | "sourcePodName" => some (.s record.sourcePodName)
  | "sourcePodNamespace" => some (.s record.sourcePodNamespace)
  | "sourceNodeName" => some (.s record.sourceNodeName)
  | "destinationPodName" => some (.s record.destinationPodName)
  | "destinationPodNamespace" => some (.s record.destinationPodNamespace)
  | "destinationNodeName" => some (.s record.destinationNodeName)
  | "destinationClusterIP" => some (.s record.destinationClusterIP)
  | "destinationServicePort" => some (.u16 record.destinationServicePort)
  | "destinationServicePortName" => some (.s record.destinationServicePortName)
  | "ingressNetworkPolicyName" => some (.s record.ingressNetworkPolicyName)
  | "ingressNetworkPolicyNamespace" => some (.s record.ingressNetworkPolicyNamespace)
  | "ingressNetworkPolicyRuleName" => some (.s record.ingressNetworkPolicyRuleName)
  | "ingressNetworkPolicyRuleAction" => some (.u8 record.ingressNetworkPolicyRuleAction)
  | "ingressNetworkPolicyType" => some (.u8 record.ingressNetworkPolicyType)
  | "egressNetworkPolicyName" => some (.s record.egressNetworkPolicyName)
  | "egressNetworkPolicyNamespace" => some (.s record.egressNetworkPolicyNamespace)
  | "egressNetworkPolicyRuleName" => some (.s record.egressNetworkPolicyRuleName)
  | "egressNetworkPolicyRuleAction" => some (.u8 record.egressNetworkPolicyRuleAction)
  | "egressNetworkPolicyType" => some (.u8 record.egressNetworkPolicyType)
  | "tcpState" => some (.s record.tcpState)
  | "flowType" => some (.u8 record.flowType)
  | "sourcePodLabels" => some (.s record.sourcePodLabels)
  | "destinationPodLabels" => some (.s record.destinationPodLabels)
  | "throughput" => some (.u64 record.throughput)
  | "reverseThroughput" => some (.u64 record.reverseThroughput)
  | "throughputFromSourceNode" => some (.u64 record.throughputFromSourceNode)
  | "throughputFromDestinationNode" => some (.u64 record.throughputFromDestinationNode)
  | "reverseThroughputFromSourceNode" => some (.u64 record.reverseThroughputFromSourceNode)
  | "reverseThroughputFromDestinationNode" => some (.u64 record.reverseThroughputFromDestinationNode)
  | _ => none

/-- The constant `maxQueueSize` (clickhouseclient.go, line 32): the
maximum size of the ingestion deque. -/
def maxQueueSize : Nat := 1 <<< 19

/-- The eviction loop at the head of `CacheSet`
(clickhouseclient.go, lines 215-217): `for deque.Len() >= queueSize { deque.PopFront() }`.
The deque is a list with its front at the head. -/
def popFrontWhileFull {α : Type} (queueSize : Nat) : List α → List α
  | [] => []
  | r :: rest =>
    if queueSize ≤ (r :: rest).length then popFrontWhileFull queueSize rest
    else r :: rest

/-- `CacheSet` (clickhouseclient.go, lines 209-219) restricted to its
buffer mutation: evict from the front while the deque is at capacity,
then push the new row at the back.  (The extraction of the row from the
received IPFIX set by `getClickHouseFlowRow` happens before this
mutation and is external to the buffer.) -/
def CacheSet {α : Type} (queueSize : Nat) (deque : List α) (row : α) : List α :=
  popFrontWhileFull queueSize deque ++ [row]

/-- A sequence of `CacheSet` calls, front to back. -/
def pushAll {α : Type} (queueSize : Nat) (deque : List α) (rows : List α) : List α :=
  rows.foldl (CacheSet queueSize) deque

/-- The error site of a failed `batchCommitAll` run that returns
`(0, err)`.  A `db.Begin` failure is not listed: on that site the Go
code panics instead of returning (see `batchCommitAll`). -/
inductive DbError where
  | prepareErr
  | execErr (i : Nat)
  | commitErr
deriving DecidableEq, Repr

/-- Oracle for the fallible `database/sql` calls made by
`batchCommitAll`: whether `db.Begin`, `tx.Prepare`, the i-th `stmt.Exec`
(given the arguments the code passes) and `tx.Commit` succeed. -/
structure DbEnv where
  beginOk : Bool
  prepareOk : Bool
  execOk : Nat → List ColValue → Bool
  commitOk : Bool

/-- Observable outcome of one `batchCommitAll` run: the Go return pair
`(int, error)`, the deque afterwards, and whether a transaction was
opened / rolled back. -/
structure BatchOutcome where
  count : Nat
  err : Option DbError
  buffer : List ClickHouseFlowRow
  beganTx : Bool
  rolledBack : Bool
deriving DecidableEq, Repr

/-- How one `batchCommitAll` run ends: either the function returns with
a `BatchOutcome`, or it panics; a panic carries the run-time error
message and the deque as the panic leaves it (a panic never removes
anything from the buffer). -/
inductive BatchResult where
  | ret (outcome : BatchOutcome)
  | panic (msg : String) (buffer : List ClickHouseFlowRow)
deriving DecidableEq, Repr

/-- The execution loop of `batchCommitAll`
(clickhouseclient.go, lines 434-493): index of the first record whose
`stmt.Exec` fails, if any.  `i` is the index of the head of `rows` in
the snapshot. -/
def firstExecFailure (env : DbEnv) (i : Nat) : List ClickHouseFlowRow → Option Nat
  | [] => none
  | r :: rest =>
    if env.execOk i (execArgs r) then firstExecFailure env (i + 1) rest
    else some i

/-- `batchCommitAll` (clickhouseclient.go, lines 414-508).
`deque` is the buffer when the run starts; `currSize := deque.Len()` is
the snapshot length.  `arrivals` are the rows pushed by concurrent
`CacheSet` calls between the snapshot and the final removal step (the
mutex serializes them before the removal); in an eviction-free
interleaving the first `currSize` entries of the deque stay the snapshot
rows, which is what the execution loop reads via `deque.At(i)`.
On success the code pops the front `currSize` rows.  When `db.Begin`
itself fails (lines 423-430), `tx` is nil and the shared error path
executes `_ = tx.Rollback()`, dereferencing the nil `*sql.Tx` — a
run-time panic, so the function never returns on that site.  On a
prepare or per-record execution failure it rolls back and returns
`(0, err)` leaving the buffer untouched; on commit failure it returns
`(0, err)` without a rollback. -/
def batchCommitAll (env : DbEnv) (queueSize : Nat)
    (deque arrivals : List ClickHouseFlowRow) : BatchResult :=
  if deque.length = 0 then
    .ret ⟨0, none, pushAll queueSize deque arrivals, false, false⟩
  else if env.beginOk = false then
    .panic "runtime error: invalid memory address or nil pointer dereference"
      (pushAll queueSize deque arrivals)
  else if env.prepareOk = false then
    .ret ⟨0, some .prepareErr, pushAll queueSize deque arrivals, true, true⟩
  else
    match firstExecFailure env 0 deque with
    | some i => .ret ⟨0, some (.execErr i), pushAll queueSize deque arrivals, true, true⟩
    | none =>
      if env.commitOk then
        .ret ⟨deque.length, none, (pushAll queueSize deque arrivals).drop deque.length, true, false⟩
      else
        .ret ⟨0, some .commitErr, pushAll queueSize deque arrivals, true, false⟩

/-- Go channel close: closing an already-closed channel is a run-time
panic (Go language specification).  The `Bool` is the closed flag of the
channel; the result is the flag after a successful close. -/
def closeChan (closed : Bool) : Except String Bool :=
  if closed then .error "close of closed channel" else .ok true

/-- `Stop` (clickhouseclient.go, lines 226-228): `close(ch.stopCh)`.
The argument is whether `stopCh` is already closed. -/
def Stop (stopChClosed : Bool) : Except String Bool :=
  closeChan stopChClosed

/-- Embedding of the Go struct `ClickHouseInput`
(clickhouseclient.go, lines 104-112), without the commit interval (not
used by the DSN functions).  The Go field `Compress *bool` is an
`Option Bool`. -/
structure ClickHouseInput where
  Username : String
  Password : String
  Database : String
  DatabaseURL : String
  Debug : Bool
  Compress : Option Bool
deriving DecidableEq, Repr

/-- `getDataSourceName` (clickhouseclient.go, lines 114-137).  When
`Compress` is nil the Go code dereferences a nil pointer (a run-time
panic); that case is modelled as the distinguished error below, reached
at the same point of the control flow at which the Go code would
panic. -/
def getDataSourceName (ci : ClickHouseInput) : Except String String :=
  if ci.DatabaseURL.length = 0 ∨ ci.Username.length = 0 ∨ ci.Password.length = 0 then
    .error "URL, Username or Password missing for clickhouse DSN"
  else
    match ci.Compress with
    | none => .error "runtime panic: invalid memory address or nil pointer dereference"
    | some compress =>
      .ok (ci.DatabaseURL ++ "?username=" ++ ci.Username ++ "&password=" ++ ci.Password
        ++ (if 0 < ci.Database.length then "&database=" ++ ci.Database else "")
        ++ (if ci.Debug then "&debug=true" else "&debug=false")
        ++ (if compress then "&compress=true" else "&compress=false"))

/-- Go map assignment `m[k] = v` on an association-list model: overwrite
the binding of `k` when present, append it otherwise. -/
def dsnMapSet (m : List (String × String)) (k v : String) : List (String × String) :=
  if m.any (fun p => p.1 = k) then
    m.map (fun p => if p.1 = k then (k, v) else p)
  else m ++ [(k, v)]

/-- The loop body of `GetDsnMap`: split one `key=value` piece on `=` and
store `pair[0] ↦ pair[1]` in the map.  A piece with no `=` makes the Go
code panic on `pair[1]`, modelled as `none`. -/
def dsnPairStep (acc : Option (List (String × String))) (piece : List Char) :
    Option (List (String × String)) :=
  match acc, splitOnChar '=' piece with
  | some m, k :: val :: _ => some (dsnMapSet m (String.mk k) (String.mk val))
  | _, _ => none

/-- `GetDsnMap` (clickhouseclient.go, lines 531-540): split the DSN on
`?`, record the part before it under `databaseURL`, then split the part
after it on `&` and each piece on `=` into a key/value binding.  The Go
code indexes `parseURL[1]` and `pair[1]` unconditionally; inputs on
which those indices do not exist make it panic, modelled as `none`. -/
def GetDsnMap (dsn : String) : Option (List (String × String)) :=
  match splitOnChar '?' dsn.data with
  | p0 :: p1 :: _ =>
    (splitOnChar '&' p1).foldl dsnPairStep (some [("databaseURL", String.mk p0)])
  | _ => none

/-- Go map lookup on the association-list model. -/
def dsnLookup (m : List (String × String)) (k : String) : Option String :=
  (m.find? (fun p => p.1 = k)).map (fun p => p.2)

/-- A string none of whose characters is `?`, `&` or `=`; such values
pass through the DSN encoding and Go `strings.Split` decoding
unchanged. -/
def dsnClean (value : String) : Prop :=
  ∀ c ∈ value.data, c ≠ '?' ∧ c ≠ '&' ∧ c ≠ '='

instance (value : String) : Decidable (dsnClean value) := by
  unfold dsnClean; infer_instance

/-- The `flowCollector` section of the flow-aggregator configuration
(the fields `LoadConfig` reads). -/
structure FlowCollectorConfig where
  Enable : Bool
  Address : String
  RecordFormat : String
deriving DecidableEq, Repr

/-- The `clickHouse` section of the flow-aggregator configuration (the
fields `LoadConfig` reads). -/
structure ClickHouseConfig where
  Enable : Bool
  CommitInterval : String
deriving DecidableEq, Repr

/-- The flow-aggregator configuration fields consumed by `LoadConfig`
(options.go), after `SetConfigDefaults` filled the defaults in. -/
structure FlowAggregatorConfig where
  FlowCollector : FlowCollectorConfig
  ClickHouse : ClickHouseConfig
  ActiveFlowRecordTimeout : String
  InactiveFlowRecordTimeout : String
  AggregatorTransportProtocol : String
deriving DecidableEq, Repr

/-- The `Options` struct produced by `LoadConfig` (options.go, lines
28-43), durations as nanosecond counts. -/
structure OptionsModel where
  ActiveFlowRecordTimeout : Int
  InactiveFlowRecordTimeout : Int
  AggregatorTransportProtocol : String
  ExternalFlowCollectorAddr : String
  ExternalFlowCollectorProto : String
  ClickHouseCommitInterval : Int
deriving DecidableEq, Repr

/-- Oracle for the external calls `LoadConfig` makes: the result of
`yaml.UnmarshalStrict` followed by `SetConfigDefaults` (both external to
the source slice), `time.ParseDuration`, `ParseTransportProtocol` and
`ParseFlowCollectorAddr` (returning host, port, protocol). -/
structure LoadEnv where
  unmarshalConfig : Except String FlowAggregatorConfig
  parseDuration : String → Except String Int
  parseTransportProtocol : String → Except String String
  parseFlowCollectorAddr : String → Except String (String × String × String)

/-- Modelled from the spec: the constant
`flowaggregatorconfig.MinClickHouseCommitInterval` lives in
`pkg/config/flowaggregator`, which is not part of the source slice; the
spec gives the enforced minimum commit interval as 1s.  Nanoseconds. -/
def MinClickHouseCommitInterval : Int := 1000000000

/-- `net.JoinHostPort`: join host and port with a colon, bracketing a
host that itself contains a colon. -/
def joinHostPort (host port : String) : String :=
  if host.data.any (fun c => c = ':') then "[" ++ host ++ "]:" ++ port
  else host ++ ":" ++ port

/-- The ClickHouse validation step of `LoadConfig` (options.go, lines
87-97): when ClickHouse is enabled, parse the configured commit interval
and reject it when below `MinClickHouseCommitInterval`; when disabled,
the interval stays at its zero value. -/
def clickHouseCommitIntervalCheck (env : LoadEnv) (cfg : FlowAggregatorConfig) :
    Except String Int :=
  if cfg.ClickHouse.Enable = true then
    match env.parseDuration cfg.ClickHouse.CommitInterval with
    | .error e => .error e
    | .ok commitInterval =>
      if commitInterval < MinClickHouseCommitInterval then
        .error ("commitInterval " ++ cfg.ClickHouse.CommitInterval
          ++ " is too small: shortest supported interval is 1s")
      else
        .ok commitInterval
  else
    .ok 0

/-- The flow-collector validation step of `LoadConfig` (options.go,
lines 72-86): when the external collector is enabled and has an address,
parse it, join host and port, and check the record format. -/
def flowCollectorAddrCheck (env : LoadEnv) (cfg : FlowAggregatorConfig) :
    Except String (String × String) :=
  if cfg.FlowCollector.Enable = true ∧ 0 < cfg.FlowCollector.Address.length then
    match env.parseFlowCollectorAddr cfg.FlowCollector.Address with
    | .error e => .error e
    | .ok (host, port, proto) =>
      if cfg.FlowCollector.RecordFormat ≠ "IPFIX" ∧ cfg.FlowCollector.RecordFormat ≠ "JSON" then
        .error ("record format " ++ cfg.FlowCollector.RecordFormat ++ " is not supported")
      else
        .ok (joinHostPort host port, proto)
  else
    .ok ("", "")

/-- `LoadConfig` (options.go, lines 45-99), with its external calls
provided by `env`.  The steps follow the Go control flow in order:
unmarshal, the two enable/address checks, the two timeout parses, the
transport-protocol parse, the flow-collector branch, the ClickHouse
branch (parse the commit interval; reject it when below
`MinClickHouseCommitInterval`). -/
def LoadConfig (env : LoadEnv) : Except String OptionsModel :=
  match env.unmarshalConfig with
  | .error e => .error ("failed to unmarshal FlowAggregator config from ConfigMap: " ++ e)
  | .ok cfg =>
    if cfg.FlowCollector.Enable = true ∧ cfg.FlowCollector.Address = "" then
      .error "external flow collector enabled without providing address"
    else if cfg.FlowCollector.Enable = false ∧ cfg.ClickHouse.Enable = false then
      .error "external flow collector or ClickHouse should be configured"
    else
      match env.parseDuration cfg.ActiveFlowRecordTimeout with
      | .error e => .error e
      | .ok activeTimeout =>
        match env.parseDuration cfg.InactiveFlowRecordTimeout with
        | .error e => .error e
        | .ok inactiveTimeout =>
          match env.parseTransportProtocol cfg.AggregatorTransportProtocol with
          | .error e => .error e
          | .ok transportProtocol =>
            match flowCollectorAddrCheck env cfg with
            | .error e => .error e
            | .ok (addr, proto) =>
              match clickHouseCommitIntervalCheck env cfg with
              | .error e => .error e
              | .ok chCommitInterval =>
                .ok ⟨activeTimeout, inactiveTimeout, transportProtocol,
                     addr, proto, chCommitInterval⟩

/-- Modelled from the spec: the `flowexporter.Tuple` 5-tuple flow
identity (§3).  The implementation package is not part of the source
slice; field names follow the unit test `deny_connections_test.go`.
Addresses are their string renderings. -/
structure Tuple where
  SourceAddress : String
  DestinationAddress : String
  Protocol : Nat
  SourcePort : Nat
  DestinationPort : Nat
deriving DecidableEq, Repr

/-- Modelled from the spec: the `flowexporter.Connection` per-flow state
record (§3), restricted to the fields the claims and the unit test
observe.  Timestamps are `Int` seconds. -/
structure Connection where
  FlowKey : Tuple
  StartTime : Int
  StopTime : Int
  OriginalBytes : Nat
  OriginalPackets : Nat
  IsActive : Bool
  DestinationServiceAddress : String
  DestinationServicePort : Nat
  DestinationServicePortName : String
  SourcePodName : String
  DestinationPodName : String
deriving DecidableEq, Repr

/-- Modelled from the spec: `flowexporter.NewConnectionKey` derives the
`ConnectionKey` from the connection's 5-tuple (§3: "immutable flow
identity derived from a 5-tuple"). -/
def NewConnectionKey (conn : Connection) : Tuple :=
  conn.FlowKey

/-- One invocation of a metadata provider (§4.2/§6): a service-by-address
lookup or an interface-by-address lookup, with the queried address. -/
inductive ProviderCall where
  | service (addr : String)
  | iface (addr : String)
deriving DecidableEq, Repr

/-- Modelled from the spec: the two metadata providers consumed by the
deny-connection store (§6), as in the unit test's `GetServiceByIP` and
`GetInterfaceByIP` mocks.  A `none` result is the normal "not found"
outcome; the interface result is rendered as the resolved pod name. -/
structure Providers where
  GetServiceByIP : String → Option String
  GetInterfaceByIP : String → Option String

/-- Modelled from the spec: the protocol name used to form the service
lookup key, as in the test's `lookupServiceProtocol`. -/
def serviceProtocolName (protocol : Nat) : String :=
  if protocol = 6 then "tcp"
  else if protocol = 17 then "udp"
  else if protocol = 132 then "sctp"
  else ""

/-- Modelled from the spec: the service lookup key
`"<dstIP>:<dstPort>/<proto>"` as built in the unit test. -/
def serviceString (t : Tuple) : String :=
  t.DestinationAddress ++ ":" ++ toString t.DestinationPort ++ "/"
    ++ serviceProtocolName t.Protocol

/-- Modelled from the spec: enrichment (§4.2) performed at insertion
only: one service-by-address lookup for the destination and one
interface-by-address lookup per endpoint address; a lookup miss leaves
the corresponding field at its current (zero) value (§4.1 failure
conditions).  Returns the enriched connection and the provider calls
made, in order. -/
def enrichConn (p : Providers) (conn : Connection) : Connection × List ProviderCall :=
  let sname :=
    match p.GetServiceByIP (serviceString conn.FlowKey) with
    | some n => n
    | none => conn.DestinationServicePortName
  let spod :=
    match p.GetInterfaceByIP conn.FlowKey.SourceAddress with
    | some n => n
    | none => conn.SourcePodName
  let dpod :=
    match p.GetInterfaceByIP conn.FlowKey.DestinationAddress with
    | some n => n
    | none => conn.DestinationPodName
  ({conn with
      DestinationServicePortName := sname
      SourcePodName := spod
      DestinationPodName := dpod},
   [.service (serviceString conn.FlowKey),
    .iface conn.FlowKey.SourceAddress,
    .iface conn.FlowKey.DestinationAddress])

/-- Modelled from the spec: the deny-connection store (§4.4): a
key-to-connection map plus the expiry queue, with the providers and the
active-flow timeout it was constructed with.  The map and the queue are
association lists keyed by the `Tuple`. -/
structure DenyConnectionStore where
  providers : Providers
  activeFlowTimeout : Int
  connections : List (Tuple × Connection)
  expirePriorityQueue : List (Tuple × Int)

/-- Modelled from the spec: `NewDenyConnectionStore` starts with an
empty map and an empty expiry queue. -/
def NewDenyConnectionStore (p : Providers) (activeFlowTimeout : Int) : DenyConnectionStore :=
  ⟨p, activeFlowTimeout, [], []⟩

/-- In-place update of the value bound to `k` in an association list;
keys and positions are untouched. -/
def updateAssoc {β : Type} (l : List (Tuple × β)) (k : Tuple) (f : β → β) :
    List (Tuple × β) :=
  l.map (fun p => if p.1 = k then (p.1, f p.2) else p)

/-- Modelled from the spec: `AddOrUpdateConn` (§4.1).  If the key is
absent: enrich (§4.2), insert with `StartTime = observedTime` and
`IsActive = true`, schedule an expiry-queue entry at
`observedTime + activeFlowTimeout`.  If present: accumulate
`OriginalBytes += deltaBytes` and `OriginalPackets += 1`, set
`StopTime = max(current, observedTime)`, preserve `StartTime` and the
enrichment, reschedule the queue entry; no provider is invoked.
Returns the new store and the provider calls made. -/
def AddOrUpdateConn (s : DenyConnectionStore) (conn : Connection)
    (observedTime : Int) (deltaBytes : Nat) : DenyConnectionStore × List ProviderCall :=
  match s.connections.find? (fun p => p.1 = NewConnectionKey conn) with
  | some _ =>
    (⟨s.providers, s.activeFlowTimeout,
      updateAssoc s.connections (NewConnectionKey conn) (fun existing =>
        {existing with
          OriginalBytes := existing.OriginalBytes + deltaBytes
          OriginalPackets := existing.OriginalPackets + 1
          StopTime := max existing.StopTime observedTime}),
      updateAssoc s.expirePriorityQueue (NewConnectionKey conn)
        (fun _ => observedTime + s.activeFlowTimeout)⟩,
     [])
  | none =>
    (⟨s.providers, s.activeFlowTimeout,
      s.connections ++ [(NewConnectionKey conn,
        {(enrichConn s.providers conn).1 with StartTime := observedTime, IsActive := true})],
      s.expirePriorityQueue ++ [(NewConnectionKey conn, observedTime + s.activeFlowTimeout)]⟩,
     (enrichConn s.providers conn).2)

/-- Modelled from the spec: `GetConnByKey` (§4.1), a read-only lookup. -/
def GetConnByKey (s : DenyConnectionStore) (key : Tuple) : Option Connection :=
  (s.connections.find? (fun p => p.1 = key)).map (fun p => p.2)

/-- Modelled from the spec: `Len` (§4.1), the number of live
connections. -/
def StoreLen (s : DenyConnectionStore) : Nat :=
  s.connections.length

/-- Modelled from the spec: `DeleteConnByKey` (§4.1) removes the key
from the map and from the expiry queue. -/
def DeleteConnByKey (s : DenyConnectionStore) (key : Tuple) : DenyConnectionStore :=
  ⟨s.providers, s.activeFlowTimeout,
   s.connections.filter (fun p => p.1 ≠ key),
   s.expirePriorityQueue.filter (fun p => p.1 ≠ key)⟩

/-- One mutating store operation (§4.1). -/
inductive StoreOp where
  | add (conn : Connection) (observedTime : Int) (deltaBytes : Nat)
  | delete (key : Tuple)

/-- Apply one store operation. -/
def applyOp (s : DenyConnectionStore) : StoreOp → DenyConnectionStore
  | .add conn t d => (AddOrUpdateConn s conn t d).1
  | .delete k => DeleteConnByKey s k

/-- Apply a sequence of store operations, in order. -/
def applyOps (s : DenyConnectionStore) (ops : List StoreOp) : DenyConnectionStore :=
  ops.foldl applyOp s

/-- Run a sequence of `AddOrUpdateConn` calls, collecting every provider
call made along the way. -/
def runAddSeq (s : DenyConnectionStore) :
    List (Connection × Int × Nat) → DenyConnectionStore × List ProviderCall
  | [] => (s, [])
  | (conn, t, d) :: rest =>
    let step := AddOrUpdateConn s conn t d
    let tail := runAddSeq step.1 rest
    (tail.1, step.2 ++ tail.2)

/-- A sample flow row for concrete runs: all counters zero, all strings
empty. -/
def sampleRowA : ClickHouseFlowRow :=
  ⟨0, 0, 0, 0, 0, "", "", 0, 0, 0, 0, 0, 0, 0, 0, 0, 0, 0, "", "", "",
   "", "", "", "", 0, "", "", "", "", 0, 0, "", "", "", 0, 0, "", 0,
   "", "", 0, 0, 0, 0, 0, 0⟩

/-- A second sample flow row, distinguished from `sampleRowA` by its
source address. -/
def sampleRowB : ClickHouseFlowRow :=
  {sampleRowA with sourceIP := "10.0.0.1"}

/-! ## Supporting lemmas for the ingestion buffer -/

/-- Below capacity, the eviction loop does nothing. -/
theorem popFrontWhileFull_of_lt {α : Type} (queueSize : Nat) (l : List α)
    (h : l.length < queueSize) : popFrontWhileFull queueSize l = l := by
  cases l with
  | nil => rfl
  | cons a t =>
    unfold popFrontWhileFull
    rw [if_neg (Nat.not_le.mpr h)]

/-- At exactly capacity (at least 1), the eviction loop pops exactly the
oldest record. -/
theorem popFrontWhileFull_of_eq {α : Type} (queueSize : Nat) (l : List α)
    (hqs : 1 ≤ queueSize) (h : l.length = queueSize) :
    popFrontWhileFull queueSize l = l.tail := by
  cases l with
  | nil => simp at h; omega
  | cons a t =>
    unfold popFrontWhileFull
    rw [if_pos (Nat.le_of_eq h.symm)]
    exact popFrontWhileFull_of_lt queueSize t (by simp at h ⊢; omega)

/-- Pushing a batch that fits under capacity is a plain append. -/
theorem pushAll_eq_append {α : Type} (queueSize : Nat) :
    ∀ (rows : List α) (l : List α), l.length + rows.length ≤ queueSize →
      pushAll queueSize l rows = l ++ rows := by
  intro rows
  induction rows with
  | nil => intro l _; simp [pushAll]
  | cons r rest ih =>
    intro l h
    have hlt : l.length < queueSize := by simp at h; omega
    have hstep : CacheSet queueSize l r = l ++ [r] := by
      unfold CacheSet
      rw [popFrontWhileFull_of_lt queueSize l hlt]
    show pushAll queueSize (CacheSet queueSize l r) rest = l ++ r :: rest
    rw [hstep]
    have := ih (l ++ [r]) (by simp at h ⊢; omega)
    rw [this, List.append_assoc]
    rfl

/-- One `CacheSet` step keeps the buffer equal to the suffix of the
most recent pushes that fits the capacity. -/
theorem CacheSet_drop {α : Type} (queueSize : Nat) (hqs : 1 ≤ queueSize)
    (l : List α) (r : α) :
    CacheSet queueSize (l.drop (l.length - queueSize)) r =
      (l ++ [r]).drop ((l ++ [r]).length - queueSize) := by
  rcases Nat.lt_or_ge l.length queueSize with hlt | hge
  · have h0 : l.length - queueSize = 0 := by omega
    have h1 : (l ++ [r]).length - queueSize = 0 := by simp; omega
    rw [h0, h1, List.drop_zero, List.drop_zero]
    unfold CacheSet
    rw [popFrontWhileFull_of_lt queueSize l hlt]
  · have hdlen : (l.drop (l.length - queueSize)).length = queueSize := by
      rw [List.length_drop]; omega
    unfold CacheSet
    rw [popFrontWhileFull_of_eq queueSize _ hqs hdlen, List.tail_drop]
    have h2 : (l ++ [r]).length - queueSize = (l.length - queueSize) + 1 := by
      simp; omega
    rw [h2, List.drop_append_of_le_length (by omega)]

/-- A full push sequence keeps the buffer equal to the suffix of the
most recent pushes that fits the capacity. -/
theorem pushAll_drop {α : Type} (queueSize : Nat) (hqs : 1 ≤ queueSize) :
    ∀ (rows l : List α),
      pushAll queueSize (l.drop (l.length - queueSize)) rows =
        (l ++ rows).drop ((l ++ rows).length - queueSize) := by
  intro rows
  induction rows with
  | nil => intro l; simp [pushAll]
  | cons r rest ih =>
    intro l
    show pushAll queueSize (CacheSet queueSize (l.drop (l.length - queueSize)) r) rest = _
    rw [CacheSet_drop queueSize hqs l r, ih (l ++ [r]), List.append_assoc]
    rfl

/-! ## Supporting lemmas for the batch committer -/

/-- If every per-record execution succeeds, the execution loop reports
no failure. -/
theorem firstExecFailure_eq_none {env : DbEnv} :
    ∀ (l : List ClickHouseFlowRow) (n : Nat),
      (∀ i (h : i < l.length), env.execOk (n + i) (execArgs (l.get ⟨i, h⟩)) = true) →
      firstExecFailure env n l = none := by
  intro l
  induction l with
  | nil => intro n _; rfl
  | cons r rest ih =>
    intro n h
    unfold firstExecFailure
    have h0 : env.execOk (n + 0) (execArgs r) = true := h 0 (by simp)
    rw [Nat.add_zero] at h0
    rw [h0]
    simp only [if_true]
    exact ih (n + 1) (fun i hi => by
      have := h (i + 1) (by simpa using Nat.succ_lt_succ hi)
      simpa [Nat.add_assoc, Nat.add_comm 1 i] using this)

/-- If the execution loop reports no failure, every per-record execution
succeeded. -/
theorem forall_of_firstExecFailure_eq_none {env : DbEnv} :
    ∀ (l : List ClickHouseFlowRow) (n : Nat),
      firstExecFailure env n l = none →
      ∀ i (h : i < l.length), env.execOk (n + i) (execArgs (l.get ⟨i, h⟩)) = true := by
  intro l
  induction l with
  | nil => intro n _ i h; simp at h
  | cons r rest ih =>
    intro n hnone i hi
    unfold firstExecFailure at hnone
    by_cases hr : env.execOk n (execArgs r) = true
    · rw [hr] at hnone
      simp only [if_true] at hnone
      match i with
      | 0 => simpa using hr
      | j + 1 =>
        have := ih (n + 1) hnone j (by simpa using Nat.lt_of_succ_lt_succ hi)
        simpa [Nat.add_assoc, Nat.add_comm 1 j] using this
    · rw [Bool.not_eq_true] at hr
      rw [hr] at hnone
      simp at hnone

/-! ## Claim theorems -/

/-- C8: the insert statement and the per-record execution agree on the
contractual schema: the statement names exactly as many columns (47) as
it has positional placeholders, each execution supplies exactly that
many arguments, and the i-th argument supplied is the
`ClickHouseFlowRow` field bearing the same name as the i-th column. -/
theorem insertQuery_schema_agreement :
    insertQueryColumnNames.length = 47 ∧
    insertQueryPlaceholderCount = 47 ∧
    ∀ record : ClickHouseFlowRow,
      (execArgs record).length = 47 ∧
      insertQueryColumnNames.map (fieldNamed record) = (execArgs record).map some := by
  refine ⟨by decide, by decide, fun record => ⟨rfl, ?_⟩⟩
  rfl

/-- C7 counterexample: invoking `Stop` twice is not clean — the second
`close(ch.stopCh)` closes an already-closed channel, a Go run-time
panic, rather than returning. -/
theorem Stop_twice_panics :
    (Stop false).bind Stop = Except.error "close of closed channel" := rfl

/-- C7 (amended): a single shutdown is clean, and the final best-effort
commit on an empty buffer returns 0, opens no transaction, rolls nothing
back and leaves the buffer untouched; but shutdown is not idempotent —
a second `Stop` panics (see `Stop_twice_panics`). -/
theorem Stop_once_and_empty_commit_clean :
    ∀ (env : DbEnv) (queueSize : Nat),
      Stop false = Except.ok true ∧
      batchCommitAll env queueSize [] [] = .ret ⟨0, none, [], false, false⟩ :=
  fun _ _ => ⟨rfl, rfl⟩

/-- C3: `maxQueueSize` is 524288, and for every sequence of `CacheSet`
pushes into an empty buffer of capacity at least 1, the buffer
afterwards holds exactly the most recent pushes that fit the capacity,
in FIFO order — so its length is `min n N` and never exceeds the
capacity. -/
theorem CacheSet_bounded_fifo :
    maxQueueSize = 524288 ∧
    ∀ (α : Type) (queueSize : Nat) (records : List α), 1 ≤ queueSize →
      pushAll queueSize [] records = records.drop (records.length - queueSize) ∧
      (pushAll queueSize [] records).length = min records.length queueSize := by
  refine ⟨by decide, fun α queueSize records hqs => ?_⟩
  have h := pushAll_drop queueSize hqs records []
  simp only [List.nil_append, List.length_nil, Nat.zero_sub, List.drop_zero] at h
  refine ⟨h, ?_⟩
  rw [h, List.length_drop]
  omega

/-- C3 witness: with capacity 1, pushing two records keeps only the most
recent one. -/
theorem CacheSet_bounded_fifo_witness :
    pushAll 1 ([] : List Nat) [10, 20] = ([10, 20] : List Nat).drop (([10, 20] : List Nat).length - 1) ∧
    (pushAll 1 ([] : List Nat) [10, 20]).length = min ([10, 20] : List Nat).length 1 :=
  CacheSet_bounded_fifo.2 Nat 1 [10, 20] (by decide)

/-- C1: if the buffer holds `L ≥ 1` records when `batchCommitAll`
starts, every per-record execution and the commit succeed, and the
snapshot plus the concurrent arrivals fit the capacity (so no eviction
interleaves), then the run returns `L` and removes exactly the snapshot
prefix: the buffer afterwards holds exactly the records pushed after the
snapshot, in order. -/
theorem batchCommitAll_success_removes_snapshot_prefix
    (env : DbEnv) (deque arrivals : List ClickHouseFlowRow)
    (hL : 1 ≤ deque.length)
    (hcap : deque.length + arrivals.length ≤ maxQueueSize)
    (hbegin : env.beginOk = true)
    (hprepare : env.prepareOk = true)
    (hexec : ∀ i (h : i < deque.length), env.execOk i (execArgs (deque.get ⟨i, h⟩)) = true)
    (hcommit : env.commitOk = true) :
    batchCommitAll env maxQueueSize deque arrivals =
      .ret ⟨deque.length, none, arrivals, true, false⟩ := by
  have hpush : pushAll maxQueueSize deque arrivals = deque ++ arrivals :=
    pushAll_eq_append maxQueueSize arrivals deque hcap
  have hfail : firstExecFailure env 0 deque = none :=
    firstExecFailure_eq_none deque 0 (fun i hi => by simpa using hexec i hi)
  unfold batchCommitAll
  rw [if_neg (by omega : ¬ deque.length = 0)]
  rw [hbegin, hprepare]
  rw [if_neg (by simp : ¬ true = false)]
  rw [if_neg (by simp : ¬ true = false)]
  rw [hfail, hpush, hcommit]
  rw [if_pos rfl, List.drop_left]

/-- C1 witness: a one-record snapshot with one concurrent arrival
commits the snapshot and leaves exactly the arrival. -/
theorem batchCommitAll_success_witness :
    batchCommitAll ⟨true, true, fun _ _ => true, true⟩ maxQueueSize
      [sampleRowA] [sampleRowB] = .ret ⟨1, none, [sampleRowB], true, false⟩ :=
  batchCommitAll_success_removes_snapshot_prefix ⟨true, true, fun _ _ => true, true⟩
    [sampleRowA] [sampleRowB] (by decide) (by decide) rfl rfl
    (fun i h => rfl) rfl

/-- On a prepare or per-record execution failure (the transaction itself
having been opened), `batchCommitAll` rolls the transaction back,
returns 0 with the error, and removes nothing: the buffer afterwards is
exactly the original records. -/
theorem batchCommitAll_prepare_exec_failure_leaves_buffer
    (env : DbEnv) (deque : List ClickHouseFlowRow)
    (hL : 1 ≤ deque.length)
    (hbegin : env.beginOk = true)
    (hfail : env.prepareOk = false ∨
      ∃ i, ∃ h : i < deque.length, env.execOk i (execArgs (deque.get ⟨i, h⟩)) = false) :
    ∃ e, batchCommitAll env maxQueueSize deque [] =
      .ret ⟨0, some e, deque, true, true⟩ := by
  unfold batchCommitAll
  rw [if_neg (by omega : ¬ deque.length = 0)]
  rw [hbegin]
  rw [if_neg (by simp : ¬ true = false)]
  by_cases hp : env.prepareOk = false
  · rw [if_pos hp]
    exact ⟨.prepareErr, rfl⟩
  · rw [if_neg hp]
    have hexecfail : ∃ i, ∃ h : i < deque.length,
        env.execOk i (execArgs (deque.get ⟨i, h⟩)) = false := by
      rcases hfail with h | h
      · exact absurd h hp
      · exact h
    obtain ⟨j, hj, hjfalse⟩ := hexecfail
    cases hsome : firstExecFailure env 0 deque with
    | none =>
      have := forall_of_firstExecFailure_eq_none deque 0 hsome j hj
      rw [Nat.zero_add] at this
      rw [this] at hjfalse
      simp at hjfalse
    | some k =>
      exact ⟨.execErr k, rfl⟩

/-- A failing execution on a one-record buffer leaves the record in
place and reports the error. -/
theorem batchCommitAll_exec_failure_example :
    ∃ e, batchCommitAll ⟨true, true, fun _ _ => false, true⟩ maxQueueSize [sampleRowA] [] =
      .ret ⟨0, some e, [sampleRowA], true, true⟩ :=
  batchCommitAll_prepare_exec_failure_leaves_buffer ⟨true, true, fun _ _ => false, true⟩
    [sampleRowA] (by decide) rfl (Or.inr ⟨0, by decide, rfl⟩)

/-- C2: at the failing input — a non-empty buffer when `db.Begin`
fails — `batchCommitAll` panics instead of returning: the shared error
path runs `_ = tx.Rollback()` with `tx` nil (clickhouseclient.go,
lines 423-430), a nil-pointer dereference, contradicting the claim (and
the function's own doc comment, "Returns the number of records
successfully committed, and error if encountered").  The buffer is still
untouched when the panic unwinds. -/
theorem batchCommitAll_begin_failure_panics :
    batchCommitAll ⟨false, true, fun _ _ => true, true⟩ maxQueueSize [sampleRowA] [] =
      BatchResult.panic "runtime error: invalid memory address or nil pointer dereference"
        [sampleRowA] := rfl

/-! ## Supporting lemmas for the connection store -/

/-- `updateAssoc` never changes the key list. -/
theorem updateAssoc_map_fst {β : Type} (l : List (Tuple × β)) (k : Tuple) (f : β → β) :
    (updateAssoc l k f).map Prod.fst = l.map Prod.fst := by
  induction l with
  | nil => rfl
  | cons a t ih =>
    unfold updateAssoc at ih ⊢
    by_cases h : a.1 = k
    · simp only [List.map_cons, if_pos h, ih]
    · simp only [List.map_cons, if_neg h, ih]

/-- Whether a key-predicate `find?` succeeds depends only on the key
list. -/
theorem find?_isSome_of_map_fst_eq {β γ : Type} (pred : Tuple → Bool) :
    ∀ (l1 : List (Tuple × β)) (l2 : List (Tuple × γ)),
      l1.map Prod.fst = l2.map Prod.fst →
      (l1.find? (fun q => pred q.1)).isSome = (l2.find? (fun q => pred q.1)).isSome := by
  intro l1
  induction l1 with
  | nil =>
    intro l2 h
    cases l2 with
    | nil => rfl
    | cons b t2 => simp at h
  | cons a t1 ih =>
    intro l2 h
    cases l2 with
    | nil => simp at h
    | cons b t2 =>
      simp only [List.map_cons, List.cons.injEq] at h
      simp only [List.find?, h.1]
      cases hb : pred b.1 with
      | true => rfl
      | false => exact ih t2 h.2

/-- Filtering on a key predicate commutes with projecting the key
list. -/
theorem filter_fst_map_comm {β : Type} (pred : Tuple → Bool) (l : List (Tuple × β)) :
    (l.filter (fun q => pred q.1)).map Prod.fst = (l.map Prod.fst).filter pred := by
  induction l with
  | nil => rfl
  | cons a t ih =>
    cases h : pred a.1 with
    | true => simp [List.filter_cons, h, ih]
    | false => simp [List.filter_cons, h, ih]

/-- Every store operation preserves equality of the map's and the
queue's key lists. -/
theorem applyOp_preserves_keys (s : DenyConnectionStore) (op : StoreOp)
    (h : s.connections.map Prod.fst = s.expirePriorityQueue.map Prod.fst) :
    (applyOp s op).connections.map Prod.fst =
      (applyOp s op).expirePriorityQueue.map Prod.fst := by
  cases op with
  | add conn t d =>
    show ((AddOrUpdateConn s conn t d).1.connections.map Prod.fst =
      (AddOrUpdateConn s conn t d).1.expirePriorityQueue.map Prod.fst)
    unfold AddOrUpdateConn
    cases hf : s.connections.find? (fun p => p.1 = NewConnectionKey conn) with
    | some x => simp only [updateAssoc_map_fst, h]
    | none => simp only [List.map_append, List.map_cons, List.map_nil, h]
  | delete k =>
    show ((s.connections.filter (fun q => q.1 ≠ k)).map Prod.fst =
      (s.expirePriorityQueue.filter (fun q => q.1 ≠ k)).map Prod.fst)
    rw [filter_fst_map_comm (fun x => decide (x ≠ k)),
      filter_fst_map_comm (fun x => decide (x ≠ k)), h]

/-- A sequence of store operations preserves equality of the key
lists. -/
theorem applyOps_preserves_keys :
    ∀ (ops : List StoreOp) (s : DenyConnectionStore),
      s.connections.map Prod.fst = s.expirePriorityQueue.map Prod.fst →
      (applyOps s ops).connections.map Prod.fst =
        (applyOps s ops).expirePriorityQueue.map Prod.fst := by
  intro ops
  induction ops with
  | nil => intro s h; exact h
  | cons op rest ih =>
    intro s h
    exact ih (applyOp s op) (applyOp_preserves_keys s op h)

/-- After the key is present, further `AddOrUpdateConn` calls for it
make no provider call and keep it present. -/
theorem runAddSeq_present_no_calls (conn : Connection) :
    ∀ (updates : List (Int × Nat)) (s : DenyConnectionStore),
      (s.connections.find? (fun q => q.1 = NewConnectionKey conn)).isSome = true →
      (runAddSeq s (updates.map (fun u => (conn, u.1, u.2)))).2 = [] := by
  intro updates
  induction updates with
  | nil => intro s _; rfl
  | cons u rest ih =>
    intro s h
    obtain ⟨x, hx⟩ := Option.isSome_iff_exists.mp h
    have hstep : AddOrUpdateConn s conn u.1 u.2 =
        (⟨s.providers, s.activeFlowTimeout,
          updateAssoc s.connections (NewConnectionKey conn) (fun existing =>
            {existing with
              OriginalBytes := existing.OriginalBytes + u.2
              OriginalPackets := existing.OriginalPackets + 1
              StopTime := max existing.StopTime u.1}),
          updateAssoc s.expirePriorityQueue (NewConnectionKey conn)
            (fun _ => u.1 + s.activeFlowTimeout)⟩,
         []) := by
      unfold AddOrUpdateConn
      rw [hx]
    show ((AddOrUpdateConn s conn u.1 u.2).2 ++
      (runAddSeq (AddOrUpdateConn s conn u.1 u.2).1 (rest.map (fun u => (conn, u.1, u.2)))).2) = []
    rw [hstep]
    simp only [List.nil_append]
    apply ih
    rw [find?_isSome_of_map_fst_eq (fun x => decide (x = NewConnectionKey conn)) _
      s.connections (updateAssoc_map_fst s.connections (NewConnectionKey conn) _)]
    exact h

/-- The flow 5-tuple used by the unit test
`TestDenyConnectionStore_AddOrUpdateConn`. -/
def testTuple : Tuple := ⟨"1.2.3.4", "4.3.2.1", 6, 65280, 255⟩

/-- The test flow used by the unit test, observed `T - 20` seconds:
60 bytes, 1 packet, active. -/
def testFlow (T : Int) : Connection :=
  ⟨testTuple, T - 20, T - 20, 60, 1, true, "4.3.2.1", 255, "", "", ""⟩

/-- Providers that resolve nothing (every lookup is a miss). -/
def missProviders : Providers := ⟨fun _ => none, fun _ => none⟩

/-- Whether a provider call is an interface-by-address lookup. -/
def isIfaceCall : ProviderCall → Bool
  | .iface _ => true
  | .service _ => false

/-- C4: inserting the test connection (60 bytes / 1 packet) at `T - 20`
and updating it with another 60 bytes / 1 packet at `T - 10` leaves one
stored connection with `OriginalBytes = 120`, `OriginalPackets = 2`,
`StartTime = T - 20` (unchanged), `StopTime = T - 10`,
`IsActive = true`, and a live count of 1. -/
theorem denyStore_accumulation (T : Int) (p : Providers) (activeFlowTimeout : Int) :
    ∃ c,
      GetConnByKey
        ((AddOrUpdateConn
            ((AddOrUpdateConn (NewDenyConnectionStore p activeFlowTimeout)
                (testFlow T) (T - 20) 60).1)
            (testFlow T) (T - 10) 60).1)
        (NewConnectionKey (testFlow T)) = some c ∧
      c.OriginalBytes = 120 ∧ c.OriginalPackets = 2 ∧ c.StartTime = T - 20 ∧
      c.StopTime = T - 10 ∧ c.IsActive = true ∧
      StoreLen
        ((AddOrUpdateConn
            ((AddOrUpdateConn (NewDenyConnectionStore p activeFlowTimeout)
                (testFlow T) (T - 20) 60).1)
            (testFlow T) (T - 10) 60).1) = 1 := by
  refine ⟨_, rfl, rfl, rfl, rfl, ?_, rfl, rfl⟩
  show max (T - 20) (T - 10) = T - 10
  exact max_eq_right (by omega)

/-- C5 counterexample: over the lifetime of the test connection (one
insert plus one update), the interface-by-address provider is invoked
twice — once per endpoint address — not exactly once as the claim
states. -/
theorem denyStore_iface_called_twice :
    ¬ (((runAddSeq (NewDenyConnectionStore missProviders 100)
          [(testFlow 0, 0 - 20, 60), (testFlow 0, 0 - 10, 60)]).2.countP isIfaceCall) = 1) ∧
    ((runAddSeq (NewDenyConnectionStore missProviders 100)
        [(testFlow 0, 0 - 20, 60), (testFlow 0, 0 - 10, 60)]).2.countP isIfaceCall) = 2 := by
  exact ⟨by decide, by decide⟩

/-- C5 (amended): across one insert and any number of further
`AddOrUpdateConn` calls for the same `ConnectionKey`, every provider
invocation happens during the first insert and none during a subsequent
update: the lifetime call list is exactly one service-by-address lookup
plus one interface-by-address lookup per endpoint address (two in
total). -/
theorem enrichment_only_on_first_insert (p : Providers) (activeFlowTimeout : Int)
    (conn : Connection) (t0 : Int) (d0 : Nat) (updates : List (Int × Nat)) :
    (runAddSeq (NewDenyConnectionStore p activeFlowTimeout)
        ((conn, t0, d0) :: updates.map (fun u => (conn, u.1, u.2)))).2 =
      [ProviderCall.service (serviceString conn.FlowKey),
       ProviderCall.iface conn.FlowKey.SourceAddress,
       ProviderCall.iface conn.FlowKey.DestinationAddress] := by
  show ((AddOrUpdateConn (NewDenyConnectionStore p activeFlowTimeout) conn t0 d0).2 ++
    (runAddSeq (AddOrUpdateConn (NewDenyConnectionStore p activeFlowTimeout) conn t0 d0).1
      (updates.map (fun u => (conn, u.1, u.2)))).2) = _
  have hrest : (runAddSeq (AddOrUpdateConn (NewDenyConnectionStore p activeFlowTimeout) conn t0 d0).1
      (updates.map (fun u => (conn, u.1, u.2)))).2 = [] := by
    apply runAddSeq_present_no_calls
    show ((([] : List (Tuple × Connection)) ++ [(NewConnectionKey conn,
        {(enrichConn p conn).1 with StartTime := t0, IsActive := true})]).find?
      (fun (q : Tuple × Connection) => q.1 = NewConnectionKey conn)).isSome = true
    simp [List.find?]
  rw [hrest, List.append_nil]
  rfl

/-- C6: for every sequence of add/update/delete operations starting from
a fresh store, the live-connection count equals the number of entries in
the expiry queue — the queue keeps exactly one entry per live
connection, including across repeated updates of one key. -/
theorem storeLen_eq_queue_length (p : Providers) (activeFlowTimeout : Int)
    (ops : List StoreOp) :
    StoreLen (applyOps (NewDenyConnectionStore p activeFlowTimeout) ops) =
      (applyOps (NewDenyConnectionStore p activeFlowTimeout) ops).expirePriorityQueue.length := by
  have h := applyOps_preserves_keys ops (NewDenyConnectionStore p activeFlowTimeout) rfl
  have h2 := congrArg List.length h
  simpa [StoreLen, List.length_map] using h2

/-! ## Supporting lemmas for LoadConfig -/

/-- A successful `LoadConfig` run carries the result of the ClickHouse
interval check into the returned options. -/
theorem LoadConfig_ok_clickHouseCheck (env : LoadEnv) (cfg : FlowAggregatorConfig)
    (hu : env.unmarshalConfig = Except.ok cfg) (opts : OptionsModel)
    (hok : LoadConfig env = Except.ok opts) :
    clickHouseCommitIntervalCheck env cfg = Except.ok opts.ClickHouseCommitInterval := by
  unfold LoadConfig at hok
  rw [hu] at hok
  simp only [] at hok
  by_cases h1 : (cfg.FlowCollector.Enable = true ∧ cfg.FlowCollector.Address = "")
  · rw [if_pos h1] at hok; exact absurd hok (by simp)
  rw [if_neg h1] at hok
  by_cases h2 : (cfg.FlowCollector.Enable = false ∧ cfg.ClickHouse.Enable = false)
  · rw [if_pos h2] at hok; exact absurd hok (by simp)
  rw [if_neg h2] at hok
  cases hp1 : env.parseDuration cfg.ActiveFlowRecordTimeout with
  | error e => rw [hp1] at hok; exact absurd hok (by simp)
  | ok aft =>
  rw [hp1] at hok
  cases hp2 : env.parseDuration cfg.InactiveFlowRecordTimeout with
  | error e => rw [hp2] at hok; exact absurd hok (by simp)
  | ok ift =>
  rw [hp2] at hok
  cases hp3 : env.parseTransportProtocol cfg.AggregatorTransportProtocol with
  | error e => rw [hp3] at hok; exact absurd hok (by simp)
  | ok atp =>
  rw [hp3] at hok
  cases hp4 : flowCollectorAddrCheck env cfg with
  | error e => rw [hp4] at hok; exact absurd hok (by simp)
  | ok pr =>
  obtain ⟨addr, proto⟩ := pr
  rw [hp4] at hok
  cases hp5 : clickHouseCommitIntervalCheck env cfg with
  | error e => rw [hp5] at hok; exact absurd hok (by simp)
  | ok chv =>
  rw [hp5] at hok
  simp only [Except.ok.injEq] at hok
  rw [← hok]

/-- With ClickHouse enabled, a successful interval check means the
configured interval parsed and is at least the minimum. -/
theorem clickHouseCheck_ok_inv (env : LoadEnv) (cfg : FlowAggregatorConfig)
    (hch : cfg.ClickHouse.Enable = true) (v : Int)
    (hok : clickHouseCommitIntervalCheck env cfg = Except.ok v) :
    env.parseDuration cfg.ClickHouse.CommitInterval = Except.ok v ∧
    ¬ v < MinClickHouseCommitInterval := by
  unfold clickHouseCommitIntervalCheck at hok
  rw [if_pos hch] at hok
  split at hok
  · exact absurd hok (by simp)
  next ci hci =>
    split at hok
    · exact absurd hok (by simp)
    next hlt =>
      cases hok
      exact ⟨hci, hlt⟩

/-- C9: with ClickHouse enabled, `LoadConfig` returns an error whenever
the parsed commit interval is below `MinClickHouseCommitInterval`, and
whenever it succeeds the resulting `ClickHouseCommitInterval` is at
least that minimum. -/
theorem LoadConfig_commit_interval_minimum (env : LoadEnv) (cfg : FlowAggregatorConfig)
    (hu : env.unmarshalConfig = Except.ok cfg)
    (hch : cfg.ClickHouse.Enable = true) :
    (∀ d, env.parseDuration cfg.ClickHouse.CommitInterval = Except.ok d →
      d < MinClickHouseCommitInterval → ∃ e, LoadConfig env = Except.error e) ∧
    (∀ opts, LoadConfig env = Except.ok opts →
      MinClickHouseCommitInterval ≤ opts.ClickHouseCommitInterval) := by
  constructor
  · intro d hd hlt
    cases hres : LoadConfig env with
    | error e => exact ⟨e, rfl⟩
    | ok opts =>
      have h1 := LoadConfig_ok_clickHouseCheck env cfg hu opts hres
      have h2 := clickHouseCheck_ok_inv env cfg hch _ h1
      rw [hd] at h2
      cases h2.1
      exact absurd hlt h2.2
  · intro opts hres
    have h1 := LoadConfig_ok_clickHouseCheck env cfg hu opts hres
    have h2 := clickHouseCheck_ok_inv env cfg hch _ h1
    omega

/-- A concrete environment for exercising
`LoadConfig_commit_interval_minimum`: ClickHouse enabled with a 0.1s
commit interval, flow collector disabled. -/
def loadEnvSmallInterval : LoadEnv :=
  ⟨Except.ok ⟨⟨false, "", "IPFIX"⟩, ⟨true, "0.1s"⟩, "60s", "90s", "tls"⟩,
   fun s =>
     if s = "60s" then Except.ok 60000000000
     else if s = "90s" then Except.ok 90000000000
     else if s = "0.1s" then Except.ok 100000000
     else Except.error "invalid duration",
   fun _ => Except.ok "tls",
   fun _ => Except.error "unused"⟩

/-- C9 witness: on the concrete environment, the 0.1s interval is below
the 1s minimum and `LoadConfig` rejects the configuration. -/
theorem LoadConfig_commit_interval_minimum_witness :
    ∃ e, LoadConfig loadEnvSmallInterval = Except.error e :=
  (LoadConfig_commit_interval_minimum loadEnvSmallInterval
      ⟨⟨false, "", "IPFIX"⟩, ⟨true, "0.1s"⟩, "60s", "90s", "tls"⟩ rfl rfl).1
    100000000 rfl (by decide)

/-! ## Supporting lemmas for the DSN round trip -/

/-- A separator-free list splits into itself alone. -/
theorem splitOnChar_of_not_mem (sep : Char) : ∀ (l : List Char), sep ∉ l →
    splitOnChar sep l = [l] := by
  intro l
  induction l with
  | nil => intro _; rfl
  | cons c t ih =>
    intro h
    have hc : ¬ c = sep := fun hc => h (hc ▸ List.mem_cons_self c t)
    have ht : sep ∉ t := fun ht => h (List.mem_cons_of_mem c ht)
    unfold splitOnChar
    rw [if_neg hc, ih ht]

/-- Splitting at the first separator occurrence peels off the
separator-free prefix. -/
theorem splitOnChar_append (sep : Char) : ∀ (l1 l2 : List Char), sep ∉ l1 →
    splitOnChar sep (l1 ++ sep :: l2) = l1 :: splitOnChar sep l2 := by
  intro l1
  induction l1 with
  | nil =>
    intro l2 _
    show splitOnChar sep (sep :: l2) = [] :: splitOnChar sep l2
    rw [splitOnChar, if_pos rfl]
  | cons c t ih =>
    intro l2 h
    have hc : ¬ c = sep := fun hc => h (hc ▸ List.mem_cons_self c t)
    have ht : sep ∉ t := fun ht => h (List.mem_cons_of_mem c ht)
    show splitOnChar sep (c :: (t ++ sep :: l2)) = (c :: t) :: splitOnChar sep l2
    rw [splitOnChar, if_neg hc, ih l2 ht]

/-- `String.mk` is a retraction of `String.data`. -/
theorem stringMk_data (s : String) : String.mk s.data = s := rfl

/-- The characters of a doubly-appended string. -/
theorem data_append3 (a b c : String) :
    (a ++ b ++ c).data = a.data ++ b.data ++ c.data := by
  simp [String.data_append]

/-- A clean value contains no `?`. -/
theorem dsnClean.not_mem_qm {v : String} (h : dsnClean v) : '?' ∉ v.data :=
  fun hm => ((h _ hm).1 rfl)

/-- A clean value contains no `&`. -/
theorem dsnClean.not_mem_amp {v : String} (h : dsnClean v) : '&' ∉ v.data :=
  fun hm => ((h _ hm).2.1 rfl)

/-- A clean value contains no `=`. -/
theorem dsnClean.not_mem_eq {v : String} (h : dsnClean v) : '=' ∉ v.data :=
  fun hm => ((h _ hm).2.2 rfl)

/-- Non-membership distributes over list append. -/
theorem not_mem_append2 {c : Char} {l1 l2 : List Char} (h1 : c ∉ l1) (h2 : c ∉ l2) :
    c ∉ l1 ++ l2 :=
  fun hm => (List.mem_append.mp hm).elim h1 h2

/-- Non-membership distributes over cons. -/
theorem not_mem_cons2 {c d : Char} {l : List Char} (h1 : d ≠ c) (h2 : c ∉ l) :
    c ∉ d :: l :=
  fun hm => (List.mem_cons.mp hm).elim (fun h => h1 h.symm) h2

/-- One `GetDsnMap` loop iteration on a well-formed `key=value` piece
stores exactly that binding. -/
theorem dsnPairStep_eq (m : List (String × String)) (k v : String)
    (hk : '=' ∉ k.data) (hv : '=' ∉ v.data) :
    dsnPairStep (some m) (k.data ++ '=' :: v.data) = some (dsnMapSet m k v) := by
  unfold dsnPairStep
  rw [splitOnChar_append '=' k.data v.data hk, splitOnChar_of_not_mem '=' v.data hv]

/-- A string of length 0 is the empty string. -/
theorem string_eq_empty_of_length_eq_zero {s : String} (h : s.length = 0) : s = "" := by
  cases s with
  | mk cs =>
    simp [String.length] at h
    simp [h]

/-- A nonempty string has positive length. -/
theorem string_pos_length_of_ne_empty {s : String} (h : s ≠ "") : 0 < s.length :=
  Nat.pos_of_ne_zero (fun h0 => h (string_eq_empty_of_length_eq_zero h0))

/-- Characters of the `?username=` DSN fragment. -/
theorem data_qusername : ("?username=" : String).data = '?' :: "username".data ++ ['='] := rfl

/-- Characters of the `&password=` DSN fragment. -/
theorem data_amppassword : ("&password=" : String).data = '&' :: "password".data ++ ['='] := rfl

/-- Characters of the `&database=` DSN fragment. -/
theorem data_ampdatabase : ("&database=" : String).data = '&' :: "database".data ++ ['='] := rfl

/-- Characters of the `&debug=` DSN fragment. -/
theorem data_ampdebug : ("&debug=" : String).data = '&' :: "debug".data ++ ['='] := rfl

/-- Characters of the `&compress=` DSN fragment. -/
theorem data_ampcompress : ("&compress=" : String).data = '&' :: "compress".data ++ ['='] := rfl

/-- Characters of the empty string. -/
theorem data_empty : ("" : String).data = [] := rfl

/-- C10: for every `ClickHouseInput` with non-empty `DatabaseURL`,
`Username` and `Password`, a non-nil `Compress` pointer, and field
values free of `?`, `&` and `=`, `getDataSourceName` succeeds and
`GetDsnMap` applied to the resulting DSN recovers the input —
`databaseURL`, `username`, `password`, `database` (when non-empty), and
the `debug`/`compress` flags rendered as `"true"`/`"false"`; and when
`DatabaseURL`, `Username` or `Password` is empty, `getDataSourceName`
returns an error instead. -/
theorem dsn_roundtrip :
    (∀ (ci : ClickHouseInput) (b : Bool),
      ci.Compress = some b →
      ci.DatabaseURL ≠ "" → ci.Username ≠ "" → ci.Password ≠ "" →
      dsnClean ci.DatabaseURL → dsnClean ci.Username → dsnClean ci.Password →
      dsnClean ci.Database →
      ∃ dsn, getDataSourceName ci = Except.ok dsn ∧
        ∃ m, GetDsnMap dsn = some m ∧
          dsnLookup m "databaseURL" = some ci.DatabaseURL ∧
          dsnLookup m "username" = some ci.Username ∧
          dsnLookup m "password" = some ci.Password ∧
          (ci.Database ≠ "" → dsnLookup m "database" = some ci.Database) ∧
          dsnLookup m "debug" = some (if ci.Debug = true then "true" else "false") ∧
          dsnLookup m "compress" = some (if b = true then "true" else "false")) ∧
    (∀ ci : ClickHouseInput,
      ci.DatabaseURL = "" ∨ ci.Username = "" ∨ ci.Password = "" →
      ∃ e, getDataSourceName ci = Except.error e) := by
  constructor
  · intro ci b hb hurl huser hpass hcu hcn hcp hcd
    have hcond : ¬(ci.DatabaseURL.length = 0 ∨ ci.Username.length = 0 ∨ ci.Password.length = 0) := by
      push_neg
      exact ⟨fun h => hurl (string_eq_empty_of_length_eq_zero h),
             fun h => huser (string_eq_empty_of_length_eq_zero h),
             fun h => hpass (string_eq_empty_of_length_eq_zero h)⟩
    generalize hgd : (if ci.Debug = true then ("true" : String) else "false") = dbgVal
    generalize hgc : (if b = true then ("true" : String) else "false") = cmpVal
    have hdbgClean : dsnClean dbgVal := by
      rw [← hgd]; cases ci.Debug <;> decide
    have hcmpClean : dsnClean cmpVal := by
      rw [← hgc]; cases b <;> decide
    have hdbgPart : (if ci.Debug = true then ("&debug=true" : String) else "&debug=false")
        = "&debug=" ++ dbgVal := by
      rw [← hgd]; cases ci.Debug <;> rfl
    have hcmpPart : (if b = true then ("&compress=true" : String) else "&compress=false")
        = "&compress=" ++ cmpVal := by
      rw [← hgc]; cases b <;> rfl
    refine ⟨_, by unfold getDataSourceName; rw [if_neg hcond, hb], ?_⟩
    have hampU : '&' ∉ "username".data ++ '=' :: ci.Username.data :=
      not_mem_append2 (by decide) (not_mem_cons2 (by decide) hcn.not_mem_amp)
    have hampP : '&' ∉ "password".data ++ '=' :: ci.Password.data :=
      not_mem_append2 (by decide) (not_mem_cons2 (by decide) hcp.not_mem_amp)
    have hampDbg : '&' ∉ "debug".data ++ '=' :: dbgVal.data :=
      not_mem_append2 (by decide) (not_mem_cons2 (by decide) hdbgClean.not_mem_amp)
    have hampCmp : '&' ∉ "compress".data ++ '=' :: cmpVal.data :=
      not_mem_append2 (by decide) (not_mem_cons2 (by decide) hcmpClean.not_mem_amp)
    by_cases hdb : ci.Database = ""
    · have hdbPart : (if 0 < ci.Database.length then "&database=" ++ ci.Database else "") = "" := by
        rw [hdb]; rfl
      have hdata : (ci.DatabaseURL ++ "?username=" ++ ci.Username ++ "&password=" ++ ci.Password
            ++ (if 0 < ci.Database.length then "&database=" ++ ci.Database else "")
            ++ (if ci.Debug = true then "&debug=true" else "&debug=false")
            ++ (if b = true then "&compress=true" else "&compress=false")).data
          = ci.DatabaseURL.data ++ '?' :: (("username".data ++ '=' :: ci.Username.data)
              ++ '&' :: (("password".data ++ '=' :: ci.Password.data)
              ++ '&' :: (("debug".data ++ '=' :: dbgVal.data)
              ++ '&' :: ("compress".data ++ '=' :: cmpVal.data)))) := by
        rw [hdbPart, hdbgPart, hcmpPart]
        simp [String.data_append, data_qusername, data_amppassword, data_ampdebug,
          data_ampcompress, data_empty, List.append_assoc]
      have hqmQ : '?' ∉ ("username".data ++ '=' :: ci.Username.data)
          ++ '&' :: (("password".data ++ '=' :: ci.Password.data)
          ++ '&' :: (("debug".data ++ '=' :: dbgVal.data)
          ++ '&' :: ("compress".data ++ '=' :: cmpVal.data))) :=
        not_mem_append2 (not_mem_append2 (by decide) (not_mem_cons2 (by decide) hcn.not_mem_qm))
          (not_mem_cons2 (by decide)
            (not_mem_append2 (not_mem_append2 (by decide) (not_mem_cons2 (by decide) hcp.not_mem_qm))
              (not_mem_cons2 (by decide)
                (not_mem_append2 (not_mem_append2 (by decide) (not_mem_cons2 (by decide) hdbgClean.not_mem_qm))
                  (not_mem_cons2 (by decide)
                    (not_mem_append2 (by decide) (not_mem_cons2 (by decide) hcmpClean.not_mem_qm)))))))
      have hsplit1 : splitOnChar '?' ((ci.DatabaseURL ++ "?username=" ++ ci.Username
            ++ "&password=" ++ ci.Password
            ++ (if 0 < ci.Database.length then "&database=" ++ ci.Database else "")
            ++ (if ci.Debug = true then "&debug=true" else "&debug=false")
            ++ (if b = true then "&compress=true" else "&compress=false")).data)
          = [ci.DatabaseURL.data,
             ("username".data ++ '=' :: ci.Username.data)
              ++ '&' :: (("password".data ++ '=' :: ci.Password.data)
              ++ '&' :: (("debug".data ++ '=' :: dbgVal.data)
              ++ '&' :: ("compress".data ++ '=' :: cmpVal.data)))] := by
        rw [hdata, splitOnChar_append '?' _ _ hcu.not_mem_qm, splitOnChar_of_not_mem '?' _ hqmQ]
      have hsplitAmp : splitOnChar '&' (("username".data ++ '=' :: ci.Username.data)
            ++ '&' :: (("password".data ++ '=' :: ci.Password.data)
            ++ '&' :: (("debug".data ++ '=' :: dbgVal.data)
            ++ '&' :: ("compress".data ++ '=' :: cmpVal.data))))
          = [("username".data ++ '=' :: ci.Username.data),
             ("password".data ++ '=' :: ci.Password.data),
             ("debug".data ++ '=' :: dbgVal.data),
             ("compress".data ++ '=' :: cmpVal.data)] := by
        rw [splitOnChar_append '&' _ _ hampU, splitOnChar_append '&' _ _ hampP,
          splitOnChar_append '&' _ _ hampDbg, splitOnChar_of_not_mem '&' _ hampCmp]
      have hmap : GetDsnMap (ci.DatabaseURL ++ "?username=" ++ ci.Username
            ++ "&password=" ++ ci.Password
            ++ (if 0 < ci.Database.length then "&database=" ++ ci.Database else "")
            ++ (if ci.Debug = true then "&debug=true" else "&debug=false")
            ++ (if b = true then "&compress=true" else "&compress=false"))
          = some (dsnMapSet (dsnMapSet (dsnMapSet (dsnMapSet
              [("databaseURL", ci.DatabaseURL)] "username" ci.Username)
              "password" ci.Password) "debug" dbgVal) "compress" cmpVal) := by
        unfold GetDsnMap
        rw [hsplit1]
        simp only []
        rw [hsplitAmp]
        simp only [List.foldl]
        rw [stringMk_data,
          dsnPairStep_eq _ "username" ci.Username (by decide) hcn.not_mem_eq,
          dsnPairStep_eq _ "password" ci.Password (by decide) hcp.not_mem_eq,
          dsnPairStep_eq _ "debug" dbgVal (by decide) hdbgClean.not_mem_eq,
          dsnPairStep_eq _ "compress" cmpVal (by decide) hcmpClean.not_mem_eq]
      refine ⟨_, hmap, ?_, ?_, ?_, ?_, ?_, ?_⟩
      · simp [dsnMapSet, dsnLookup, List.find?, List.any]
      · simp [dsnMapSet, dsnLookup, List.find?, List.any]
      · simp [dsnMapSet, dsnLookup, List.find?, List.any]
      · intro h; exact absurd hdb h
      · simp [dsnMapSet, dsnLookup, List.find?, List.any]
      · simp [dsnMapSet, dsnLookup, List.find?, List.any]
    · have hdbPart : (if 0 < ci.Database.length then "&database=" ++ ci.Database else "")
          = "&database=" ++ ci.Database :=
        if_pos (string_pos_length_of_ne_empty hdb)
      have hampD : '&' ∉ "database".data ++ '=' :: ci.Database.data :=
        not_mem_append2 (by decide) (not_mem_cons2 (by decide) hcd.not_mem_amp)
      have hdata : (ci.DatabaseURL ++ "?username=" ++ ci.Username ++ "&password=" ++ ci.Password
            ++ (if 0 < ci.Database.length then "&database=" ++ ci.Database else "")
            ++ (if ci.Debug = true then "&debug=true" else "&debug=false")
            ++ (if b = true then "&compress=true" else "&compress=false")).data
          = ci.DatabaseURL.data ++ '?' :: (("username".data ++ '=' :: ci.Username.data)
              ++ '&' :: (("password".data ++ '=' :: ci.Password.data)
              ++ '&' :: (("database".data ++ '=' :: ci.Database.data)
              ++ '&' :: (("debug".data ++ '=' :: dbgVal.data)
              ++ '&' :: ("compress".data ++ '=' :: cmpVal.data))))) := by
        rw [hdbPart, hdbgPart, hcmpPart]
        simp [String.data_append, data_qusername, data_amppassword, data_ampdatabase,
          data_ampdebug, data_ampcompress, List.append_assoc]
      have hqmQ : '?' ∉ ("username".data ++ '=' :: ci.Username.data)
          ++ '&' :: (("password".data ++ '=' :: ci.Password.data)
          ++ '&' :: (("database".data ++ '=' :: ci.Database.data)
          ++ '&' :: (("debug".data ++ '=' :: dbgVal.data)
          ++ '&' :: ("compress".data ++ '=' :: cmpVal.data)))) :=
        not_mem_append2 (not_mem_append2 (by decide) (not_mem_cons2 (by decide) hcn.not_mem_qm))
          (not_mem_cons2 (by decide)
            (not_mem_append2 (not_mem_append2 (by decide) (not_mem_cons2 (by decide) hcp.not_mem_qm))
              (not_mem_cons2 (by decide)
                (not_mem_append2 (not_mem_append2 (by decide) (not_mem_cons2 (by decide) hcd.not_mem_qm))
                  (not_mem_cons2 (by decide)
                    (not_mem_append2 (not_mem_append2 (by decide) (not_mem_cons2 (by decide) hdbgClean.not_mem_qm))
                      (not_mem_cons2 (by decide)
                        (not_mem_append2 (by decide) (not_mem_cons2 (by decide) hcmpClean.not_mem_qm)))))))))
      have hsplit1 : splitOnChar '?' ((ci.DatabaseURL ++ "?username=" ++ ci.Username
            ++ "&password=" ++ ci.Password
            ++ (if 0 < ci.Database.length then "&database=" ++ ci.Database else "")
            ++ (if ci.Debug = true then "&debug=true" else "&debug=false")
            ++ (if b = true then "&compress=true" else "&compress=false")).data)
          = [ci.DatabaseURL.data,
             ("username".data ++ '=' :: ci.Username.data)
              ++ '&' :: (("password".data ++ '=' :: ci.Password.data)
              ++ '&' :: (("database".data ++ '=' :: ci.Database.data)
              ++ '&' :: (("debug".data ++ '=' :: dbgVal.data)
              ++ '&' :: ("compress".data ++ '=' :: cmpVal.data))))] := by
        rw [hdata, splitOnChar_append '?' _ _ hcu.not_mem_qm, splitOnChar_of_not_mem '?' _ hqmQ]
      have hsplitAmp : splitOnChar '&' (("username".data ++ '=' :: ci.Username.data)
            ++ '&' :: (("password".data ++ '=' :: ci.Password.data)
            ++ '&' :: (("database".data ++ '=' :: ci.Database.data)
            ++ '&' :: (("debug".data ++ '=' :: dbgVal.data)
            ++ '&' :: ("compress".data ++ '=' :: cmpVal.data)))))
          = [("username".data ++ '=' :: ci.Username.data),
             ("password".data ++ '=' :: ci.Password.data),
             ("database".data ++ '=' :: ci.Database.data),
             ("debug".data ++ '=' :: dbgVal.data),
             ("compress".data ++ '=' :: cmpVal.data)] := by
        rw [splitOnChar_append '&' _ _ hampU, splitOnChar_append '&' _ _ hampP,
          splitOnChar_append '&' _ _ hampD, splitOnChar_append '&' _ _ hampDbg,
          splitOnChar_of_not_mem '&' _ hampCmp]
      have hmap : GetDsnMap (ci.DatabaseURL ++ "?username=" ++ ci.Username
            ++ "&password=" ++ ci.Password
            ++ (if 0 < ci.Database.length then "&database=" ++ ci.Database else "")
            ++ (if ci.Debug = true then "&debug=true" else "&debug=false")
            ++ (if b = true then "&compress=true" else "&compress=false"))
          = some (dsnMapSet (dsnMapSet (dsnMapSet (dsnMapSet (dsnMapSet
              [("databaseURL", ci.DatabaseURL)] "username" ci.Username)
              "password" ci.Password) "database" ci.Database)
              "debug" dbgVal) "compress" cmpVal) := by
        unfold GetDsnMap
        rw [hsplit1]
        simp only []
        rw [hsplitAmp]
        simp only [List.foldl]
        rw [stringMk_data,
          dsnPairStep_eq _ "username" ci.Username (by decide) hcn.not_mem_eq,
          dsnPairStep_eq _ "password" ci.Password (by decide) hcp.not_mem_eq,
          dsnPairStep_eq _ "database" ci.Database (by decide) hcd.not_mem_eq,
          dsnPairStep_eq _ "debug" dbgVal (by decide) hdbgClean.not_mem_eq,
          dsnPairStep_eq _ "compress" cmpVal (by decide) hcmpClean.not_mem_eq]
      refine ⟨_, hmap, ?_, ?_, ?_, ?_, ?_, ?_⟩
      · simp [dsnMapSet, dsnLookup, List.find?, List.any]
      · simp [dsnMapSet, dsnLookup, List.find?, List.any]
      · simp [dsnMapSet, dsnLookup, List.find?, List.any]
      · intro _; simp [dsnMapSet, dsnLookup, List.find?, List.any]
      · simp [dsnMapSet, dsnLookup, List.find?, List.any]
      · simp [dsnMapSet, dsnLookup, List.find?, List.any]
  · intro ci h
    refine ⟨"URL, Username or Password missing for clickhouse DSN", ?_⟩
    unfold getDataSourceName
    rw [if_pos]
    rcases h with h | h | h
    · exact Or.inl (by rw [h]; rfl)
    · exact Or.inr (Or.inl (by rw [h]; rfl))
    · exact Or.inr (Or.inr (by rw [h]; rfl))

/-- A concrete `ClickHouseInput` exercising the DSN round trip. -/
def sampleInput : ClickHouseInput :=
  ⟨"uname", "pword", "dbx", "tcp://localhost:9000", false, some true⟩

/-- C10 witness: the round trip holds at a concrete input, and a
concrete input with an empty `DatabaseURL` is rejected. -/
theorem dsn_roundtrip_witness :
    (∃ dsn, getDataSourceName sampleInput = Except.ok dsn ∧
      ∃ m, GetDsnMap dsn = some m ∧
        dsnLookup m "databaseURL" = some sampleInput.DatabaseURL ∧
        dsnLookup m "username" = some sampleInput.Username ∧
        dsnLookup m "password" = some sampleInput.Password ∧
        (sampleInput.Database ≠ "" → dsnLookup m "database" = some sampleInput.Database) ∧
        dsnLookup m "debug" = some (if sampleInput.Debug = true then "true" else "false") ∧
        dsnLookup m "compress" = some (if true = true then "true" else "false")) ∧
    (∃ e, getDataSourceName ⟨"u2", "p2", "", "", false, some false⟩ = Except.error e) :=
  ⟨dsn_roundtrip.1 sampleInput true rfl (by decide) (by decide) (by decide)
      (by decide) (by decide) (by decide) (by decide),
   dsn_roundtrip.2 ⟨"u2", "p2", "", "", false, some false⟩ (Or.inl rfl)⟩

end AntreaSpec
